import Mathlib

/-!
# Waysbucks profile handler

A shallow embedding of `handlers/profile.go`.

* Go `string` is `String`; where the code walks a string byte by byte
  (`strconv.Atoi`) the UTF-8 bytes of the string are used.
* Go `int` is the 64-bit `int` of the usual server platforms; values are `Int`,
  and the places where the library code relies on 64-bit wrap-around reduce
  modulo `2 ^ 64` explicitly.
* `http.ResponseWriter`, the cloud upload and the repository are effects.  A
  handler is a function from the request and the repository state to the list
  of effects it performs, in program order, and the repository state it leaves.
  `UpdateProfile` can panic before its lookup (a type assertion on the request
  context, or the `nil` result of a failed upload); the outcome records it.
* `models.Profile`, the DTO packages and the repository interface are imported
  by the handler but declared elsewhere; their shape is read off the handler's
  own field accesses and calls.  The columns of `models.Profile` that the
  handler never names are kept together in one field `rest`, of a parameter
  type `ρ`; the type of the preloaded `User` is a parameter `υ`.
-/

namespace Waysbucks

/-! ## `net/http` status codes -/

namespace http

def StatusOK : Nat := 200

def StatusBadRequest : Nat := 400

def StatusInternalServerError : Nat := 500

end http

/-! ## `models` and the DTO packages -/

namespace models

/-- The `models.Profile` record: the seven fields the handler names, and `rest`
for every other column (record ID, timestamps). -/
structure Profile (υ ρ : Type) where
  Phone : String
  Address : String
  City : String
  PostalCode : Int
  Image : String
  UserID : Int
  User : υ
  rest : ρ
deriving DecidableEq

end models

namespace profiledto

/-- The request DTO `profiledto.CreateProfile`, as `CreateProfile` reads it. -/
structure CreateProfile where
  Phone : String
  Address : String
  City : String
  PostalCode : Int
  Image : String
  UserID : Int
deriving DecidableEq

/-- The request DTO `profiledto.UpdateProfile`, as `UpdateProfile` builds it. -/
structure UpdateProfile where
  Address : String
  PostalCode : Int
  Image : String
deriving DecidableEq

/-- The response DTO `profiledto.ProfileResponse`. -/
structure ProfileResponse (υ : Type) where
  Image : String
  Phone : String
  Address : String
  PostalCode : Int
  City : String
  UserID : Int
  User : υ
deriving DecidableEq

end profiledto

namespace dto

/-- The error envelope `dto.ErrorResult`. -/
structure ErrorResult where
  Code : Nat
  Message : String
deriving DecidableEq

/-- What the handlers put into `SuccessResult.Data` (an `interface{}`). -/
inductive Data (υ ρ : Type) where
  | profiles (ps : List (models.Profile υ ρ))
  | profile (p : models.Profile υ ρ)
  | response (r : profiledto.ProfileResponse υ)
deriving DecidableEq

/-- The success envelope `dto.SuccessResult`. -/
structure SuccessResult (υ ρ : Type) where
  Code : String
  Data : Data υ ρ
deriving DecidableEq

end dto

/-! ## Effects -/

/-- One effect of a handler: a call on the response writer (`SetHeader` for
`w.Header().Set`, `WriteHeader`, and the two shapes `json.NewEncoder(w).Encode`
is given), the upload call, or a call of a repository method with its argument. -/
inductive Event (υ ρ : Type) where
  | SetHeader (key value : String)
  | WriteHeader (statusCode : Nat)
  | EncodeError (response : dto.ErrorResult)
  | EncodeSuccess (response : dto.SuccessResult υ ρ)
  | Upload (file folder : String)
  | RepoFindProfiles
  | RepoGetProfile (ID : Int)
  | RepoCreateProfile (profile : models.Profile υ ρ)
  | RepoUpdateProfile (profile : models.Profile υ ρ)
  | RepoDeleteProfile (profile : models.Profile υ ρ)
deriving DecidableEq

namespace repositories

/-- What a repository method returns: the Go pair `(value, error)`, with
`err = none` for a `nil` error and `some msg` for an error whose `Error()` is
`msg`, and the state of the store after the call. -/
structure Reply (α σ : Type) where
  val : α
  err : Option String
  db : σ

/-- The interface `repositories.ProfileRepository`, over a store of type `σ`. -/
structure ProfileRepository (σ υ ρ : Type) where
  FindProfiles : σ → Reply (List (models.Profile υ ρ)) σ
  GetProfile : Int → σ → Reply (models.Profile υ ρ) σ
  CreateProfile : models.Profile υ ρ → σ → Reply (models.Profile υ ρ) σ
  UpdateProfile : models.Profile υ ρ → σ → Reply (models.Profile υ ρ) σ
  DeleteProfile : models.Profile υ ρ → σ → Reply (models.Profile υ ρ) σ

end repositories

/-! ## `strconv`

The handlers call `strconv.Atoi` and drop its error, so what reaches the
repository is whatever value `Atoi` returns beside the error.  The definitions
follow `strconv/atoi.go` of the Go standard library, for base 10 and a 64-bit
`int`: the fast path of `Atoi` for strings shorter than 19 bytes, and
`ParseInt` over `ParseUint` for the rest. -/

namespace strconv

/-- The `Err` of a `*strconv.NumError`. -/
inductive NumError where
  | ErrSyntax
  | ErrRange
deriving DecidableEq

/-- The byte sequence of a Go string (`[]byte(s)`), each byte as a number
below 256. -/
def bytes (s : String) : List Nat :=
  s.toUTF8.data.toList.map UInt8.toNat

/-- The constant `strconv.IntSize`. -/
def IntSize : Nat := 64

def maxUint64 : Nat := 2 ^ 64 - 1

/-- The conversion `int64(x)`: the value modulo `2 ^ 64`, read as signed. -/
def int64 (x : Int) : Int :=
  (x + 2 ^ 63) % 2 ^ 64 - 2 ^ 63

/-- The helper `lower(c)`: `c | ('x' - 'X')`. -/
def lower (c : Nat) : Nat :=
  c ||| 32

/-- The digit switch of the `ParseUint` loop for a base that is not 0: the
digit value of byte `c`, or `none` in the `default` case. -/
def digitVal (c : Nat) : Option Nat :=
  if 48 ≤ c ∧ c ≤ 57 then some (c - 48)
  else if 97 ≤ lower c ∧ lower c ≤ 122 then some (lower c - 97 + 10)
  else none

/-- The loop of `ParseUint` over the remaining bytes, from the accumulator `n`
(a `uint64`). -/
def parseUintLoop (base cutoff maxVal : Nat) : List Nat → Nat → Nat × Option NumError
  | [], n => (n, none)
  | c :: cs, n =>
    match digitVal c with
    | none => (0, some NumError.ErrSyntax)
    | some d =>
      if d ≥ base then (0, some NumError.ErrSyntax)
      else if n ≥ cutoff then (maxVal, some NumError.ErrRange)
      else
        let n10 := (n * base) % 2 ^ 64
        let n1 := (n10 + d) % 2 ^ 64
        if n1 < n10 ∨ n1 > maxVal then (maxVal, some NumError.ErrRange)
        else parseUintLoop base cutoff maxVal cs n1

/-- The call `ParseUint(s, 10, bitSize)` with `bitSize` 0 or 64, on the bytes
of `s`. -/
def ParseUint (s : List Nat) : Nat × Option NumError :=
  if s = [] then (0, some NumError.ErrSyntax)
  else
    let cutoff := maxUint64 / 10 + 1
    let maxVal := 2 ^ IntSize - 1
    parseUintLoop 10 cutoff maxVal s 0

/-- The call `ParseInt(s, 10, 0)` on the bytes of `s`. -/
def ParseInt (s : List Nat) : Int × Option NumError :=
  match s with
  | [] => (0, some NumError.ErrSyntax)
  | c :: cs =>
    let neg := decide (c ≠ 43 ∧ c = 45)
    let s1 := if c = 43 then cs else if c = 45 then cs else s
    let r := ParseUint s1
    let un := r.1
    if r.2 ≠ none ∧ r.2 ≠ some NumError.ErrRange then (0, r.2)
    else
      let cutoff : Nat := 2 ^ (IntSize - 1)
      if neg = false ∧ un ≥ cutoff then (int64 (cutoff - 1 : Nat), some NumError.ErrRange)
      else if neg = true ∧ un > cutoff then (int64 (- int64 (cutoff : Nat)), some NumError.ErrRange)
      else
        let n := int64 un
        (if neg then int64 (- n) else n, none)

/-- The fast-path loop of `Atoi`: `ch -= '0'` on a byte, then
`n = n*10 + int(ch)` on an `int`; `none` is the syntax-error return. -/
def atoiLoop : List Nat → Int → Option Int
  | [], n => some n
  | c :: cs, n =>
    let ch := (c + 256 - 48) % 256
    if ch > 9 then none
    else atoiLoop cs (int64 (n * 10 + ch))

/-- The function `strconv.Atoi` on a 64-bit platform: the value and the error
(`none` for `nil`). -/
def Atoi (s : String) : Int × Option NumError :=
  let b := bytes s
  let sLen := b.length
  if 0 < sLen ∧ sLen < 19 then
    match b with
    | [] => (0, some NumError.ErrSyntax)
    | c :: cs =>
      let signed := decide (c = 45 ∨ c = 43)
      let b1 := if signed then cs else b
      if signed = true ∧ b1.length < 1 then (0, some NumError.ErrSyntax)
      else
        match atoiLoop b1 0 with
        | none => (0, some NumError.ErrSyntax)
        | some n => (if c = 45 then int64 (- n) else n, none)
  else
    ParseInt b

end strconv

/-! ## The request and the external calls -/

namespace uploader

/-- The part of cloudinary's `uploader.UploadResult` the handler reads. The
upload returns a pointer to one, and the pointer can be `nil`. -/
structure UploadResult where
  SecureURL : String
deriving DecidableEq

end uploader

/-- What a handler reads of its `*http.Request`.

* `Vars` is `mux.Vars(r)`, a map: `none` for a key that is not present.
* `FormValue` is `r.FormValue`, which gives `""` for an absent key.
* `Body` is what `json.NewDecoder(r.Body).Decode(&request)` leaves for a
  `request` of type `*profiledto.CreateProfile`: `none` when `Decode` returns
  an error, `some none` when it sets the pointer to `nil` (the JSON value
  `null`), `some (some d)` when it fills the DTO with `d`.
* `userInfoID` is `int(userInfo["id"].(float64))` for the claims the auth
  middleware stored in the context under `"userInfo"`; `none` when the context
  holds no `jwt.MapClaims` there or the claims hold no `float64` under `"id"`,
  so that a type assertion of lines 105-106 panics.
* `dataFile` is the string the upload middleware stored in the context under
  `"dataFile"`; `none` when the context holds no string there, so that the
  type assertion of line 109 panics. -/
structure Request where
  Vars : String → Option String
  FormValue : String → String
  Body : Option (Option profiledto.CreateProfile)
  userInfoID : Option Int
  dataFile : Option String

/-- Indexing of a Go `map[string]string`: the zero value `""` for a key that is
not present. -/
def mapIndex (m : String → Option String) (key : String) : String :=
  (m key).getD ""

/-! ## The handlers -/

namespace handlers

open repositories

variable {σ υ ρ : Type}

/-- The handler struct `handlersProfile`. -/
structure handlersProfile (σ υ ρ : Type) where
  ProfileRepository : ProfileRepository σ υ ρ

def HandlerProfile (ProfileRepository : ProfileRepository σ υ ρ) : handlersProfile σ υ ρ :=
  ⟨ProfileRepository⟩

/-- What running a handler leaves: the effects in program order up to its
return or its panic, the repository state, and whether the handler panicked
instead of returning. -/
structure Outcome (σ υ ρ : Type) where
  trace : List (Event υ ρ)
  db : σ
  panicked : Bool := false

def convertResponseProfile (u : models.Profile υ ρ) : profiledto.ProfileResponse υ :=
  { Image := u.Image
    Phone := u.Phone
    Address := u.Address
    PostalCode := u.PostalCode
    City := u.City
    UserID := u.UserID
    User := u.User }

/-- The statement `w.Header().Set("Content-Type", "application/json")`. -/
def contentType : Event υ ρ :=
  Event.SetHeader "Content-Type" "application/json"

/-- The three-line block `w.WriteHeader(status)`, build an `ErrorResult`,
encode it. -/
def writeError (status code : Nat) (message : String) : List (Event υ ρ) :=
  [Event.WriteHeader status, Event.EncodeError ⟨code, message⟩]

/-- The closing block `w.WriteHeader(http.StatusOK)`, build a `SuccessResult`
with code `"Success"`, encode it. -/
def writeSuccess (data : dto.Data υ ρ) : List (Event υ ρ) :=
  [Event.WriteHeader http.StatusOK, Event.EncodeSuccess ⟨"Success", data⟩]

/-- An `if err != nil { ... }` block that writes an error response and has no
`return`: the events it adds. -/
def onError (err : Option String) (status code : Nat) : List (Event υ ρ) :=
  match err with
  | some msg => writeError status code msg
  | none => []

def FindProfiles (h : handlersProfile σ υ ρ) (_r : Request) (db : σ) : Outcome σ υ ρ :=
  let found := h.ProfileRepository.FindProfiles db
  { trace :=
      [contentType, Event.RepoFindProfiles]
        ++ onError found.err http.StatusInternalServerError http.StatusBadRequest
        ++ writeSuccess (dto.Data.profiles found.val)
    db := found.db }

def GetProfile (h : handlersProfile σ υ ρ) (r : Request) (db : σ) : Outcome σ υ ρ :=
  let id := (strconv.Atoi (mapIndex r.Vars "id")).1
  let got := h.ProfileRepository.GetProfile id db
  { trace :=
      [contentType, Event.RepoGetProfile id]
        ++ onError got.err http.StatusInternalServerError http.StatusBadRequest
        ++ writeSuccess (dto.Data.response (convertResponseProfile got.val))
    db := got.db }

/-- The call `validate.Struct(request)` on the pointer `request`: `true` when
the returned error is `nil`.  A `nil` pointer is rejected by the validator; a
DTO is checked against its struct tags, `tags` (declared with the DTO, outside
this file). -/
def validateStruct (tags : profiledto.CreateProfile → Bool) :
    Option profiledto.CreateProfile → Bool
  | none => false
  | some request => tags request

def CreateProfile [Inhabited υ] [Inhabited ρ] (h : handlersProfile σ υ ρ)
    (tags : profiledto.CreateProfile → Bool) (r : Request) (db : σ) : Outcome σ υ ρ :=
  match r.Body with
  | none =>
    { trace := contentType :: writeError http.StatusBadRequest http.StatusBadRequest "hai"
      db := db }
  | some none =>
    { trace := contentType :: writeError http.StatusBadRequest http.StatusBadRequest "hello"
      db := db }
  | some (some request) =>
    if validateStruct tags (some request) = false then
      { trace := contentType :: writeError http.StatusBadRequest http.StatusBadRequest "hello"
        db := db }
    else
      let profile : models.Profile υ ρ :=
        { Phone := request.Phone
          Address := request.Address
          City := request.City
          PostalCode := request.PostalCode
          Image := request.Image
          UserID := request.UserID
          User := default
          rest := default }
      let created := h.ProfileRepository.CreateProfile profile db
      { trace :=
          [contentType, Event.RepoCreateProfile profile]
            ++ onError created.err http.StatusInternalServerError http.StatusBadRequest
            ++ writeSuccess (dto.Data.response (convertResponseProfile created.val))
        db := created.db }

/-- The three conditional assignments of `UpdateProfile` onto the looked-up
profile. -/
def overwrite (profile : models.Profile υ ρ) (request : profiledto.UpdateProfile)
    (filepath : String) : models.Profile υ ρ :=
  let profile := if request.Address ≠ "" then { profile with Address := request.Address } else profile
  let profile :=
    if request.PostalCode ≠ 0 then { profile with PostalCode := request.PostalCode } else profile
  let profile := if filepath ≠ "false" then { profile with Image := request.Image } else profile
  profile

/-- The handler `UpdateProfile`. `Upload` stands for lines 111-120, the cloud
call `cld.Upload.Upload(ctx, filepath, ...)` with its error dropped: `some` of
the result `resp` points to, `none` when the call leaves `resp` `nil`, as it
does when the file cannot be sent. Line 126 reads `resp.SecureURL` whether or
not there was an error, so on a `nil` result the handler panics there, before
the lookup; it panics earlier still when a type assertion on the context
fails. -/
def UpdateProfile (h : handlersProfile σ υ ρ)
    (Upload : String → Option uploader.UploadResult) (r : Request) (db : σ) :
    Outcome σ υ ρ :=
  match r.userInfoID with
  | none => { trace := [contentType], db := db, panicked := true }
  | some id =>
    match r.dataFile with
    | none => { trace := [contentType], db := db, panicked := true }
    | some filepath =>
      match Upload filepath with
      | none =>
        { trace := [contentType, Event.Upload filepath "WaysBucks"], db := db,
          panicked := true }
      | some resp =>
        let postalcode := (strconv.Atoi (r.FormValue "postal_code")).1
        let request : profiledto.UpdateProfile :=
          { Address := r.FormValue "address"
            PostalCode := postalcode
            Image := resp.SecureURL }
        let got := h.ProfileRepository.GetProfile id db
        let profile := overwrite got.val request filepath
        let updated := h.ProfileRepository.UpdateProfile profile got.db
        { trace :=
            [contentType, Event.Upload filepath "WaysBucks", Event.RepoGetProfile id]
              ++ onError got.err http.StatusBadRequest http.StatusBadRequest
              ++ [Event.RepoUpdateProfile profile]
              ++ onError updated.err http.StatusInternalServerError
                http.StatusInternalServerError
              ++ writeSuccess (dto.Data.response (convertResponseProfile updated.val))
          db := updated.db }

def DeleteProfile (h : handlersProfile σ υ ρ) (r : Request) (db : σ) : Outcome σ υ ρ :=
  let id := (strconv.Atoi (mapIndex r.Vars "id")).1
  let got := h.ProfileRepository.GetProfile id db
  let deleted := h.ProfileRepository.DeleteProfile got.val got.db
  { trace :=
      [contentType, Event.RepoGetProfile id]
        ++ onError got.err http.StatusBadRequest http.StatusBadRequest
        ++ [Event.RepoDeleteProfile got.val]
        ++ onError deleted.err http.StatusInternalServerError http.StatusInternalServerError
        ++ writeSuccess (dto.Data.profile deleted.val)
    db := deleted.db }

end handlers

/-! ## Reading a trace -/

namespace Trace

variable {υ ρ : Type}

/-- The JSON envelopes written to the response, in order. -/
def envelopes (t : List (Event υ ρ)) : List (Event υ ρ) :=
  t.filter fun e =>
    match e with
    | Event.EncodeError _ => true
    | Event.EncodeSuccess _ => true
    | _ => false

/-- The calls on the response writer after the header map: `WriteHeader` and
`Encode`, in order. -/
def written (t : List (Event υ ρ)) : List (Event υ ρ) :=
  t.filter fun e =>
    match e with
    | Event.WriteHeader _ => true
    | Event.EncodeError _ => true
    | Event.EncodeSuccess _ => true
    | _ => false

/-- The ids the repository's `GetProfile` was called with. -/
def getCalls (t : List (Event υ ρ)) : List Int :=
  t.filterMap fun e =>
    match e with
    | Event.RepoGetProfile id => some id
    | _ => none

/-- The profiles the repository's `CreateProfile` was called with. -/
def createCalls (t : List (Event υ ρ)) : List (models.Profile υ ρ) :=
  t.filterMap fun e =>
    match e with
    | Event.RepoCreateProfile p => some p
    | _ => none

/-- The profiles the repository's `UpdateProfile` was called with. -/
def updateCalls (t : List (Event υ ρ)) : List (models.Profile υ ρ) :=
  t.filterMap fun e =>
    match e with
    | Event.RepoUpdateProfile p => some p
    | _ => none

/-- The profiles the repository's `DeleteProfile` was called with. -/
def deleteCalls (t : List (Event υ ρ)) : List (models.Profile υ ρ) :=
  t.filterMap fun e =>
    match e with
    | Event.RepoDeleteProfile p => some p
    | _ => none

/-- Every error envelope directly follows a `WriteHeader` of the status that
is its `Code`. -/
def errorCodesMatch : List (Event υ ρ) → Bool
  | Event.WriteHeader status :: Event.EncodeError e :: t =>
    decide (e.Code = status) && errorCodesMatch t
  | Event.EncodeError _ :: _ => false
  | _ :: t => errorCodesMatch t
  | [] => true

end Trace

/-! ## Decimal integers, as the specification speaks of them -/

namespace Decimal

/-- The byte is one of `'0'` .. `'9'`. -/
def isDigit (c : Nat) : Bool :=
  decide (48 ≤ c ∧ c ≤ 57)

/-- The number a run of digit bytes writes, most significant digit first, on
top of an already read `n`. -/
def valueFrom (n : Nat) (ds : List Nat) : Nat :=
  ds.foldl (fun acc c => acc * 10 + (c - 48)) n

/-- The number a run of digit bytes writes. -/
def value (ds : List Nat) : Nat :=
  valueFrom 0 ds

/-- The bytes after an optional leading `'+'` or `'-'`. -/
def unsigned : List Nat → List Nat
  | [] => []
  | c :: cs => if c = 43 ∨ c = 45 then cs else c :: cs

/-- The bytes start with `'-'`. -/
def negative : List Nat → Bool
  | [] => false
  | c :: _ => decide (c = 45)

/-- The digits that follow the optional sign, up to the first byte that is not
a digit. -/
def leadingDigits (b : List Nat) : List Nat :=
  (unsigned b).takeWhile isDigit

/-- The integer a byte string writes in decimal: an optional sign followed by
one or more digits and nothing else; `none` for any other string. -/
def integer (b : List Nat) : Option Int :=
  if unsigned b ≠ [] ∧ (unsigned b).all isDigit = true then
    some (if negative b then - (value (unsigned b) : Int) else (value (unsigned b) : Int))
  else none

def minInt : Int := - 2 ^ 63

def maxInt : Int := 2 ^ 63 - 1

/-- The nearest value of the 64-bit `int` range. -/
def saturate (n : Int) : Int :=
  if n < minInt then minInt else if maxInt < n then maxInt else n

end Decimal

/-! ## Repositories to run the handlers on -/

namespace sample

open repositories

/-- A profile with a user name for `User` and the record ID for `rest`. -/
abbrev Profile : Type := models.Profile String Nat

def zero : Profile :=
  { Phone := "", Address := "", City := "", PostalCode := 0, Image := "", UserID := 0,
    User := "", rest := 0 }

/-- An in-memory repository: the store is the list of saved profiles, looked
up by record ID; `UpdateProfile` saves the profile it is given, replacing the
record of the same ID or adding one. -/
def memory : ProfileRepository (List Profile) String Nat where
  FindProfiles db := ⟨db, none, db⟩
  GetProfile id db :=
    match db.find? (fun p => decide ((p.rest : Int) = id)) with
    | some p => ⟨p, none, db⟩
    | none => ⟨zero, some "record not found", db⟩
  CreateProfile p db := ⟨p, none, db ++ [p]⟩
  UpdateProfile p db :=
    if db.any (fun q => decide (q.rest = p.rest)) then
      ⟨p, none, db.map (fun q => if q.rest = p.rest then p else q)⟩
    else ⟨p, none, db ++ [p]⟩
  DeleteProfile p db := ⟨p, none, db.filter (fun q => decide (q.rest ≠ p.rest))⟩

/-- A repository whose database cannot be reached: every method returns an
error. -/
def down : ProfileRepository Unit String Nat where
  FindProfiles db := ⟨[], some "connection refused", db⟩
  GetProfile _ db := ⟨zero, some "connection refused", db⟩
  CreateProfile _ db := ⟨zero, some "connection refused", db⟩
  UpdateProfile _ db := ⟨zero, some "connection refused", db⟩
  DeleteProfile _ db := ⟨zero, some "connection refused", db⟩

/-- A stored profile: record 7, of user 3. -/
def stored : Profile :=
  { Phone := "0812", Address := "Jl. Kopi 1", City := "Bandung", PostalCode := 40111,
    Image := "https://img/old.png", UserID := 3, User := "sofia", rest := 7 }

/-- A request with nothing in it: no path variable, no form value, a body
that does not decode, no context value. -/
def emptyRequest : Request :=
  { Vars := fun _ => none, FormValue := fun _ => "", Body := none, userInfoID := none,
    dataFile := none }

/-- A request whose path is `/profile/{id}` with the given `id`. -/
def withID (id : String) : Request :=
  { emptyRequest with Vars := fun k => if k = "id" then some id else none }

/-- An update request of user 7: the form values `address` and `postal_code`
and the `dataFile` of the context, the path of the file sent or `"false"`. -/
def updateRequest (address postalCode dataFile : String) : Request :=
  { emptyRequest with
    FormValue := fun k =>
      if k = "address" then address else if k = "postal_code" then postalCode else ""
    userInfoID := some 7
    dataFile := some dataFile }

/-- A create request whose body decodes to `d`. -/
def createRequest (d : profiledto.CreateProfile) : Request :=
  { emptyRequest with Body := some (some d) }

def newProfile : profiledto.CreateProfile :=
  { Phone := "0813", Address := "Jl. Teh 2", City := "Bogor", PostalCode := 16111,
    Image := "new.png", UserID := 4 }

/-- The DTO `newProfile` without its phone number. -/
def noPhone : profiledto.CreateProfile :=
  { newProfile with Phone := "" }

/-- Struct tags that require a phone number. -/
def phoneRequired (d : profiledto.CreateProfile) : Bool :=
  decide (d.Phone ≠ "")

/-- An upload that succeeds and returns the file's URL. -/
def uploadOK (file : String) : Option uploader.UploadResult :=
  some ⟨"https://cdn/" ++ file⟩

/-- An upload the service answers without a URL (it rejected the request): the
result is there, its `SecureURL` is empty. -/
def uploadFails (_file : String) : Option uploader.UploadResult :=
  some ⟨""⟩

/-- An upload that cannot send its file: the result pointer is `nil`. -/
def uploadNil (_file : String) : Option uploader.UploadResult :=
  none

end sample

/-! ## `strconv.Atoi` reads decimal integers, saturating

The loop of `ParseUint`, then `ParseInt`, then the fast path of `Atoi`, each
against the decimal reading of the bytes. -/

namespace strconv

open Decimal

theorem bytes_lt (s : String) : ∀ c ∈ bytes s, c < 256 := by
  intro c hc
  unfold bytes at hc
  rcases List.mem_map.mp hc with ⟨u, _, rfl⟩
  exact u.val.isLt

theorem int64_of_range (x : Int) (h1 : - 2 ^ 63 ≤ x) (h2 : x < 2 ^ 63) : int64 x = x := by
  unfold int64
  omega

theorem valueFrom_cons (n c : Nat) (ds : List Nat) :
    valueFrom n (c :: ds) = valueFrom (n * 10 + (c - 48)) ds := rfl

theorem le_valueFrom (ds : List Nat) : ∀ n, n ≤ valueFrom n ds := by
  induction ds with
  | nil => intro n; exact Nat.le_refl n
  | cons c ds ih =>
    intro n
    rw [valueFrom_cons]
    have := ih (n * 10 + (c - 48))
    omega

theorem isDigit_iff (c : Nat) : isDigit c = true ↔ 48 ≤ c ∧ c ≤ 57 := by
  simp [isDigit]

theorem digitVal_of_digit (c : Nat) (h : isDigit c = true) : digitVal c = some (c - 48) := by
  rw [isDigit_iff] at h
  unfold digitVal
  rw [if_pos h]

theorem digitVal_of_not_digit (c : Nat) (h : isDigit c = false) :
    digitVal c = none ∨ ∃ d, digitVal c = some d ∧ 10 ≤ d := by
  have h' : ¬ (48 ≤ c ∧ c ≤ 57) := by
    rw [← isDigit_iff, h]; simp
  unfold digitVal
  rw [if_neg h']
  by_cases hl : 97 ≤ lower c ∧ lower c ≤ 122
  · right
    exact ⟨lower c - 97 + 10, by rw [if_pos hl], by omega⟩
  · left
    rw [if_neg hl]

theorem cutoff_eq : maxUint64 / 10 + 1 = 1844674407370955162 := by
  norm_num [maxUint64]

theorem maxVal_eq : 2 ^ IntSize - 1 = 18446744073709551615 := by
  norm_num [IntSize]

theorem parseUintLoop_spec (cs : List Nat) : ∀ n, n < 2 ^ 64 →
    parseUintLoop 10 (maxUint64 / 10 + 1) (2 ^ IntSize - 1) cs n =
      if 2 ^ 64 ≤ valueFrom n (cs.takeWhile isDigit) then
        (18446744073709551615, some NumError.ErrRange)
      else if cs.all isDigit = true then (valueFrom n cs, none)
      else (0, some NumError.ErrSyntax) := by
  rw [cutoff_eq, maxVal_eq]
  induction cs with
  | nil =>
    intro n hn
    have h : ¬ (2 ^ 64 ≤ valueFrom n (List.takeWhile isDigit [])) := by
      show ¬ (2 ^ 64 ≤ n)
      omega
    rw [if_neg h]
    rfl
  | cons c cs ih =>
    intro n hn
    cases hc : isDigit c with
    | true =>
      have hd := digitVal_of_digit c hc
      have hc' : 48 ≤ c ∧ c ≤ 57 := (isDigit_iff c).mp hc
      have hmono := le_valueFrom (cs.takeWhile isDigit) (n * 10 + (c - 48))
      have htw : List.takeWhile isDigit (c :: cs) = c :: List.takeWhile isDigit cs := by
        rw [List.takeWhile_cons, hc]; rfl
      have hall : (c :: cs).all isDigit = cs.all isDigit := by
        rw [List.all_cons, hc, Bool.true_and]
      rw [parseUintLoop, hd, htw, hall, valueFrom_cons, valueFrom_cons]
      show (if c - 48 ≥ 10 then _ else _) = _
      rw [if_neg (by omega)]
      by_cases hcut : n ≥ 1844674407370955162
      · rw [if_pos hcut, if_pos (by omega)]
      · rw [if_neg hcut]
        by_cases hov : 2 ^ 64 ≤ n * 10 + (c - 48)
        · rw [if_pos (by omega), if_pos (by omega)]
        · have h3 : (n * 10 % 2 ^ 64 + (c - 48)) % 2 ^ 64 = n * 10 + (c - 48) := by omega
          show (if (n * 10 % 2 ^ 64 + (c - 48)) % 2 ^ 64 < n * 10 % 2 ^ 64 ∨
              (n * 10 % 2 ^ 64 + (c - 48)) % 2 ^ 64 > 18446744073709551615 then _ else _) = _
          rw [if_neg (by omega), h3]
          exact ih (n * 10 + (c - 48)) (by omega)
    | false =>
      have htw : List.takeWhile isDigit (c :: cs) = [] := by
        rw [List.takeWhile_cons, hc]; rfl
      have hall : (c :: cs).all isDigit = false := by
        rw [List.all_cons, hc, Bool.false_and]
      have h : ¬ (2 ^ 64 ≤ valueFrom n []) := by
        show ¬ (2 ^ 64 ≤ n)
        omega
      rw [htw, hall, if_neg h, if_neg (by simp), parseUintLoop]
      rcases digitVal_of_not_digit c hc with h | ⟨d, h, hd⟩
      · rw [h]
      · rw [h]
        show (if d ≥ 10 then _ else _) = _
        rw [if_pos hd]

theorem ParseUint_spec (s : List Nat) :
    ParseUint s =
      if s = [] then (0, some NumError.ErrSyntax)
      else if 2 ^ 64 ≤ value (s.takeWhile isDigit) then
        (18446744073709551615, some NumError.ErrRange)
      else if s.all isDigit = true then (value s, none)
      else (0, some NumError.ErrSyntax) := by
  unfold ParseUint
  by_cases hs : s = []
  · rw [if_pos hs, if_pos hs]
  · rw [if_neg hs, if_neg hs]
    exact parseUintLoop_spec s 0 (by omega)

theorem valueFrom_lt_pow (ds : List Nat) : ∀ n j, n + 1 ≤ 10 ^ j →
    (∀ c ∈ ds, isDigit c = true) → valueFrom n ds + 1 ≤ 10 ^ (j + ds.length) := by
  induction ds with
  | nil => intro n j h _; simpa [valueFrom] using h
  | cons c ds ih =>
    intro n j h hd
    have hc : 48 ≤ c ∧ c ≤ 57 := (isDigit_iff c).mp (hd c (List.mem_cons_self c ds))
    have h1 : n * 10 + (c - 48) + 1 ≤ 10 ^ (j + 1) := by
      rw [pow_succ]; omega
    have := ih (n * 10 + (c - 48)) (j + 1) h1 (fun x hx => hd x (List.mem_cons_of_mem c hx))
    rw [valueFrom_cons, List.length_cons]
    have e : j + (ds.length + 1) = j + 1 + ds.length := by omega
    rw [e]
    exact this

theorem pow_le_18 (j : Nat) (h : j ≤ 18) : 10 ^ j ≤ 1000000000000000000 := by
  have := Nat.pow_le_pow_right (by decide : 0 < 10) h
  norm_num at this
  exact this

theorem atoiLoop_spec (cs : List Nat) : ∀ (n j : Nat), n + 1 ≤ 10 ^ j → j + cs.length ≤ 18 →
    (∀ c ∈ cs, c < 256) →
    atoiLoop cs (n : Int) =
      if cs.all isDigit = true then some ((valueFrom n cs : Nat) : Int) else none := by
  induction cs with
  | nil => intro n j _ _ _; rfl
  | cons c cs ih =>
    intro n j hn hj hb
    have hc256 : c < 256 := hb c (List.mem_cons_self c cs)
    rw [List.length_cons] at hj
    rw [atoiLoop]
    cases hc : isDigit c with
    | true =>
      have hc' : 48 ≤ c ∧ c ≤ 57 := (isDigit_iff c).mp hc
      have hall : (c :: cs).all isDigit = cs.all isDigit := by
        rw [List.all_cons, hc, Bool.true_and]
      have h1 : n * 10 + (c - 48) + 1 ≤ 10 ^ (j + 1) := by
        rw [pow_succ]; omega
      have h2 := pow_le_18 (j + 1) (by omega)
      have hch : (c + 256 - 48) % 256 = c - 48 := by omega
      have e : int64 ((n : Int) * 10 + (((c + 256 - 48) % 256 : Nat) : Int))
          = ((n * 10 + (c - 48) : Nat) : Int) := by
        rw [hch, int64_of_range] <;> push_cast <;> omega
      show (if (c + 256 - 48) % 256 > 9 then _ else _) = _
      rw [if_neg (by omega), hall, valueFrom_cons, e]
      exact ih (n * 10 + (c - 48)) (j + 1) h1 (by omega)
        (fun x hx => hb x (List.mem_cons_of_mem c hx))
    | false =>
      have hc' : ¬ (48 ≤ c ∧ c ≤ 57) := by
        rw [← isDigit_iff, hc]; simp
      have hall : (c :: cs).all isDigit = false := by
        rw [List.all_cons, hc, Bool.false_and]
      show (if (c + 256 - 48) % 256 > 9 then _ else _) = _
      rw [if_pos (by omega), hall]
      simp

theorem int64_maxInt : int64 ((2 ^ (IntSize - 1) - 1 : Nat) : Int) = maxInt := by
  norm_num [int64, IntSize, maxInt]

theorem int64_minInt : int64 (- int64 ((2 ^ (IntSize - 1) : Nat) : Int)) = minInt := by
  norm_num [int64, IntSize, minInt]

theorem ParseInt_cons (c : Nat) (cs : List Nat) :
    ParseInt (c :: cs) =
      if (ParseUint (unsigned (c :: cs))).2 ≠ none ∧
          (ParseUint (unsigned (c :: cs))).2 ≠ some NumError.ErrRange then
        (0, (ParseUint (unsigned (c :: cs))).2)
      else if negative (c :: cs) = false ∧ (ParseUint (unsigned (c :: cs))).1 ≥ 2 ^ 63 then
        (maxInt, some NumError.ErrRange)
      else if negative (c :: cs) = true ∧ (ParseUint (unsigned (c :: cs))).1 > 2 ^ 63 then
        (minInt, some NumError.ErrRange)
      else
        (if negative (c :: cs) = true then
            int64 (- int64 ((ParseUint (unsigned (c :: cs))).1 : Int))
          else int64 ((ParseUint (unsigned (c :: cs))).1 : Int), none) := by
  have hs1 : (if c = 43 then cs else if c = 45 then cs else c :: cs) = unsigned (c :: cs) := by
    unfold unsigned
    by_cases h1 : c = 43
    · simp [h1]
    · by_cases h2 : c = 45
      · simp [h2]
      · simp [h1, h2]
  have hneg : decide (c ≠ 43 ∧ c = 45) = negative (c :: cs) := by
    unfold negative
    by_cases h2 : c = 45
    · simp [h2]
    · simp [h2]
  unfold ParseInt
  simp only [hs1, hneg, int64_maxInt, int64_minInt]
  rfl

theorem ParseInt_spec (b : List Nat) :
    ParseInt b =
      if unsigned b = [] then (0, some NumError.ErrSyntax)
      else if 2 ^ 64 ≤ value (leadingDigits b) then
        (if negative b = true then minInt else maxInt, some NumError.ErrRange)
      else if (unsigned b).all isDigit = true then
        (if negative b = true then
          (if 2 ^ 63 < value (unsigned b) then (minInt, some NumError.ErrRange)
            else (- (value (unsigned b) : Int), none))
        else
          (if 2 ^ 63 ≤ value (unsigned b) then (maxInt, some NumError.ErrRange)
            else ((value (unsigned b) : Int), none)))
      else (0, some NumError.ErrSyntax) := by
  cases b with
  | nil => rfl
  | cons c cs =>
    rw [ParseInt_cons, ParseUint_spec]
    unfold leadingDigits
    generalize unsigned (c :: cs) = u
    generalize negative (c :: cs) = ng
    by_cases hu : u = []
    · simp [hu]
    · rw [if_neg hu, if_neg hu]
      by_cases hov : 2 ^ 64 ≤ value (List.takeWhile isDigit u)
      · rw [if_pos hov, if_pos hov]
        cases ng <;> simp
      · rw [if_neg hov, if_neg hov]
        cases hall : u.all isDigit with
        | false => simp
        | true =>
          have htw : List.takeWhile isDigit u = u := by
            rw [List.takeWhile_eq_self_iff]
            exact fun x hx => List.all_eq_true.mp hall x hx
          rw [htw] at hov
          generalize value u = v at hov
          cases ng with
          | false =>
            by_cases h63 : 2 ^ 63 ≤ v
            · have h63' : 9223372036854775808 ≤ v := by omega
              simp [h63']
            · have e : int64 (v : Int) = (v : Int) := int64_of_range _ (by omega) (by omega)
              simp [h63, e]
          | true =>
            by_cases h63 : 2 ^ 63 < v
            · have h63' : 9223372036854775808 < v := by omega
              simp [h63']
            · have e : int64 (- int64 (v : Int)) = - (v : Int) := by
                unfold int64; omega
              simp [h63, e]

theorem unsigned_cons (c : Nat) (cs : List Nat) :
    unsigned (c :: cs) = if c = 43 ∨ c = 45 then cs else c :: cs := rfl

theorem value_takeWhile_lt (u : List Nat) (h : u.length ≤ 18) :
    value (u.takeWhile isDigit) + 1 ≤ 1000000000000000000 := by
  have h1 := valueFrom_lt_pow (u.takeWhile isDigit) 0 0 (by norm_num)
    (fun c hc => (List.mem_takeWhile_imp hc))
  have h2 : (u.takeWhile isDigit).length ≤ 18 :=
    Nat.le_trans (List.takeWhile_sublist isDigit).length_le h
  have h3 := pow_le_18 (0 + (u.takeWhile isDigit).length) (by omega)
  unfold value
  omega

theorem Atoi_spec (s : String) :
    Atoi s =
      if unsigned (bytes s) = [] then (0, some NumError.ErrSyntax)
      else if 2 ^ 64 ≤ value (leadingDigits (bytes s)) then
        (if negative (bytes s) = true then minInt else maxInt, some NumError.ErrRange)
      else if (unsigned (bytes s)).all isDigit = true then
        (if negative (bytes s) = true then
          (if 2 ^ 63 < value (unsigned (bytes s)) then (minInt, some NumError.ErrRange)
            else (- (value (unsigned (bytes s)) : Int), none))
        else
          (if 2 ^ 63 ≤ value (unsigned (bytes s)) then (maxInt, some NumError.ErrRange)
            else ((value (unsigned (bytes s)) : Int), none)))
      else (0, some NumError.ErrSyntax) := by
  have hlt := bytes_lt s
  unfold Atoi
  generalize bytes s = b at hlt
  show (if 0 < b.length ∧ b.length < 19 then _ else ParseInt b) = _
  by_cases hlen : 0 < b.length ∧ b.length < 19
  · rw [if_pos hlen]
    cases b with
    | nil => exact absurd hlen.1 (by simp)
    | cons c cs =>
      have hcs : cs.length ≤ 17 := by
        have := hlen.2
        rw [List.length_cons] at this
        omega
      have hu : (if decide (c = 45 ∨ c = 43) = true then cs else c :: cs) = unsigned (c :: cs) := by
        rw [unsigned_cons]
        by_cases h : c = 43 ∨ c = 45
        · have h' : c = 45 ∨ c = 43 := h.symm
          simp [h, h']
        · have h' : ¬ (c = 45 ∨ c = 43) := fun x => h x.symm
          simp [h, h']
      have hng : negative (c :: cs) = decide (c = 45) := rfl
      have hulen : (unsigned (c :: cs)).length ≤ 18 := by
        rw [unsigned_cons]
        split
        · omega
        · rw [List.length_cons]; omega
      have hult : ∀ x ∈ unsigned (c :: cs), x < 256 := by
        intro x hx
        apply hlt
        rw [unsigned_cons] at hx
        split at hx
        · exact List.mem_cons_of_mem c hx
        · exact hx
      have hloop := atoiLoop_spec (unsigned (c :: cs)) 0 0 (by norm_num) (by omega) hult
      have hval := value_takeWhile_lt (unsigned (c :: cs)) hulen
      have hempty : (decide (c = 45 ∨ c = 43) = true ∧ (unsigned (c :: cs)).length < 1)
          ↔ unsigned (c :: cs) = [] := by
        constructor
        · intro h
          exact List.length_eq_zero.mp (by omega)
        · intro h
          refine ⟨?_, by rw [h]; simp⟩
          rw [unsigned_cons] at h
          split at h
          · rename_i h'
            simpa using h'.symm
          · exact absurd h (by simp)
      show (if decide (c = 45 ∨ c = 43) = true ∧
            (if decide (c = 45 ∨ c = 43) = true then cs else c :: cs).length < 1 then _
          else
            match atoiLoop (if decide (c = 45 ∨ c = 43) = true then cs else c :: cs) 0 with
            | none => _
            | some n => _) = _
      rw [hu, hng]
      unfold leadingDigits
      generalize unsigned (c :: cs) = u at *
      by_cases hue : u = []
      · rw [if_pos (hempty.mpr hue), if_pos hue]
      · rw [if_neg (fun h => hue (hempty.mp h)), if_neg hue, if_neg (by omega)]
        have hloop' : atoiLoop u 0 = if u.all isDigit = true then some ((value u : Nat) : Int) else none := by
          simpa [value] using hloop
        rw [hloop']
        cases hall : u.all isDigit with
        | false => simp
        | true =>
          have htw : List.takeWhile isDigit u = u := by
            rw [List.takeWhile_eq_self_iff]
            exact fun x hx => List.all_eq_true.mp hall x hx
          rw [htw] at hval
          generalize value u = v at hval
          by_cases h45 : c = 45
          · have e : int64 (- (v : Int)) = - (v : Int) := int64_of_range _ (by omega) (by omega)
            have h63 : ¬ (9223372036854775808 < v) := by omega
            simp [h45, e, h63]
          · have h63 : ¬ (9223372036854775808 ≤ v) := by omega
            simp [h45, h63]
  · rw [if_neg hlen]
    exact ParseInt_spec b

theorem Atoi_integer (s : String) (n : Int) (h : integer (bytes s) = some n) :
    Atoi s = (saturate n, if minInt ≤ n ∧ n ≤ maxInt then none else some NumError.ErrRange) := by
  unfold integer at h
  split at h
  · rename_i hc
    have hn : n = if negative (bytes s) = true then - (value (unsigned (bytes s)) : Int)
        else (value (unsigned (bytes s)) : Int) := (Option.some.inj h).symm
    have htw : leadingDigits (bytes s) = unsigned (bytes s) := by
      unfold leadingDigits
      rw [List.takeWhile_eq_self_iff]
      exact fun x hx => List.all_eq_true.mp hc.2 x hx
    rw [Atoi_spec, if_neg hc.1, htw, if_pos hc.2, hn]
    generalize value (unsigned (bytes s)) = v
    unfold saturate minInt maxInt
    cases negative (bytes s) with
    | true =>
      by_cases h64 : 2 ^ 64 ≤ v
      · rw [if_pos h64]
        simp only [if_true]
        rw [if_pos (by omega), if_neg (by omega)]
      · rw [if_neg h64]
        simp only [if_true]
        by_cases h63 : 2 ^ 63 < v
        · rw [if_pos h63, if_pos (by omega), if_neg (by omega)]
        · rw [if_neg h63, if_neg (by omega), if_neg (by omega), if_pos (by omega)]
    | false =>
      by_cases h64 : 2 ^ 64 ≤ v
      · rw [if_pos h64]
        simp only [Bool.false_eq_true, if_false]
        rw [if_neg (by omega), if_pos (by omega), if_neg (by omega)]
      · rw [if_neg h64]
        simp only [Bool.false_eq_true, if_false]
        by_cases h63 : 2 ^ 63 ≤ v
        · rw [if_pos h63, if_neg (by omega), if_pos (by omega), if_neg (by omega)]
        · rw [if_neg h63, if_neg (by omega), if_neg (by omega), if_pos (by omega)]
  · exact absurd h (by simp)

theorem Atoi_not_integer (s : String) (h : integer (bytes s) = none) :
    Atoi s =
      if 2 ^ 64 ≤ value (leadingDigits (bytes s)) then
        (if negative (bytes s) = true then minInt else maxInt, some NumError.ErrRange)
      else (0, some NumError.ErrSyntax) := by
  unfold integer at h
  split at h
  · exact absurd h (by simp)
  · rename_i hc
    rw [Atoi_spec]
    by_cases hu : unsigned (bytes s) = []
    · have : leadingDigits (bytes s) = [] := by
        unfold leadingDigits; rw [hu]; rfl
      rw [if_pos hu, this, if_neg (by decide)]
    · rw [if_neg hu]
      have hall : ¬ ((unsigned (bytes s)).all isDigit = true) := fun ha => hc ⟨hu, ha⟩
      rw [if_neg hall]

theorem Atoi_syntax_zero (s : String) (h : (Atoi s).2 = some NumError.ErrSyntax) :
    (Atoi s).1 = 0 := by
  cases hi : integer (bytes s) with
  | some n =>
    rw [Atoi_integer s n hi] at h
    by_cases hr : minInt ≤ n ∧ n ≤ maxInt
    · rw [if_pos hr] at h
      exact absurd h (by simp)
    · rw [if_neg hr] at h
      exact absurd h (by simp)
  | none =>
    rw [Atoi_not_integer s hi] at h ⊢
    by_cases hv : 2 ^ 64 ≤ value (leadingDigits (bytes s))
    · rw [if_pos hv] at h
      exact absurd h (by simp)
    · rw [if_neg hv]

theorem Atoi_range_bound (s : String) (h : (Atoi s).2 = some NumError.ErrRange) :
    (Atoi s).1 = maxInt ∨ (Atoi s).1 = minInt := by
  cases hi : integer (bytes s) with
  | some n =>
    rw [Atoi_integer s n hi] at h ⊢
    by_cases hr : minInt ≤ n ∧ n ≤ maxInt
    · rw [if_pos hr] at h
      exact absurd h (by simp)
    · show saturate n = maxInt ∨ saturate n = minInt
      unfold saturate
      by_cases h1 : n < minInt
      · right
        rw [if_pos h1]
      · left
        have h2 : maxInt < n := by
          by_contra hc
          exact hr ⟨by omega, by omega⟩
        rw [if_neg h1, if_pos h2]
  | none =>
    rw [Atoi_not_integer s hi] at h ⊢
    by_cases hv : 2 ^ 64 ≤ value (leadingDigits (bytes s))
    · rw [if_pos hv]
      cases negative (bytes s) with
      | true => right; rfl
      | false => left; rfl
    · rw [if_neg hv] at h
      exact absurd h (by simp)

end strconv

/-! ## The handlers' traces -/

namespace handlers

open repositories Trace Decimal

variable {σ υ ρ : Type}

theorem getCalls_append (a b : List (Event υ ρ)) :
    getCalls (a ++ b) = getCalls a ++ getCalls b :=
  List.filterMap_append _ _ _

theorem createCalls_append (a b : List (Event υ ρ)) :
    createCalls (a ++ b) = createCalls a ++ createCalls b :=
  List.filterMap_append _ _ _

theorem updateCalls_append (a b : List (Event υ ρ)) :
    updateCalls (a ++ b) = updateCalls a ++ updateCalls b :=
  List.filterMap_append _ _ _

theorem onError_calls (err : Option String) (status code : Nat) :
    getCalls (onError err status code : List (Event υ ρ)) = [] ∧
      createCalls (onError err status code : List (Event υ ρ)) = [] ∧
      updateCalls (onError err status code : List (Event υ ρ)) = [] ∧
      deleteCalls (onError err status code : List (Event υ ρ)) = [] := by
  cases err <;> exact ⟨rfl, rfl, rfl, rfl⟩

theorem writeSuccess_calls (data : dto.Data υ ρ) :
    getCalls (writeSuccess data) = [] ∧ createCalls (writeSuccess data) = [] ∧
      updateCalls (writeSuccess data) = [] ∧ deleteCalls (writeSuccess data) = [] :=
  ⟨rfl, rfl, rfl, rfl⟩

/-- A run of `UpdateProfile` that gets past line 126 (both context values are
there, the upload left a result): it calls the repository's `UpdateProfile`
once, with the looked-up profile overwritten from the request, and leaves the
store that call leaves. -/
theorem UpdateProfile_reached (h : handlersProfile σ υ ρ)
    (Upload : String → Option uploader.UploadResult) (r : Request) (db : σ)
    (id : Int) (filepath : String) (resp : uploader.UploadResult)
    (hid : r.userInfoID = some id) (hfile : r.dataFile = some filepath)
    (hup : Upload filepath = some resp) :
    updateCalls (UpdateProfile h Upload r db).trace =
        [overwrite (h.ProfileRepository.GetProfile id db).val
          { Address := r.FormValue "address"
            PostalCode := (strconv.Atoi (r.FormValue "postal_code")).1
            Image := resp.SecureURL } filepath] ∧
      (UpdateProfile h Upload r db).db =
        (h.ProfileRepository.UpdateProfile
          (overwrite (h.ProfileRepository.GetProfile id db).val
            { Address := r.FormValue "address"
              PostalCode := (strconv.Atoi (r.FormValue "postal_code")).1
              Image := resp.SecureURL } filepath)
          (h.ProfileRepository.GetProfile id db).db).db := by
  constructor
  · unfold UpdateProfile
    simp only [hid, hfile, hup, updateCalls_append, (onError_calls _ _ _).2.2.1,
      (writeSuccess_calls _).2.2.1, List.append_nil]
    rfl
  · unfold UpdateProfile
    simp only [hid, hfile, hup]

/-- A run of `UpdateProfile` whose upload leaves `resp` `nil`: the handler
panics at line 126, after the upload and before the lookup; no repository
method is called and nothing is written. -/
theorem UpdateProfile_nil_upload (h : handlersProfile σ υ ρ)
    (Upload : String → Option uploader.UploadResult) (r : Request) (db : σ)
    (id : Int) (filepath : String)
    (hid : r.userInfoID = some id) (hfile : r.dataFile = some filepath)
    (hup : Upload filepath = none) :
    (UpdateProfile h Upload r db).trace = [contentType, Event.Upload filepath "WaysBucks"] ∧
      (UpdateProfile h Upload r db).db = db ∧
      (UpdateProfile h Upload r db).panicked = true := by
  unfold UpdateProfile
  simp only [hid, hfile, hup, and_self]

theorem getCalls_GetProfile (h : handlersProfile σ υ ρ) (r : Request) (db : σ) :
    getCalls (GetProfile h r db).trace = [(strconv.Atoi (mapIndex r.Vars "id")).1] := by
  unfold GetProfile
  simp only [getCalls_append, (onError_calls _ _ _).1, (writeSuccess_calls _).1,
    List.append_nil]
  rfl

theorem getCalls_DeleteProfile (h : handlersProfile σ υ ρ) (r : Request) (db : σ) :
    getCalls (DeleteProfile h r db).trace = [(strconv.Atoi (mapIndex r.Vars "id")).1] := by
  unfold DeleteProfile
  simp only [getCalls_append, (onError_calls _ _ _).1, (writeSuccess_calls _).1,
    List.append_nil]
  rfl

theorem overwrite_Address (p : models.Profile υ ρ) (q : profiledto.UpdateProfile) (f : String) :
    (overwrite p q f).Address = if q.Address ≠ "" then q.Address else p.Address := by
  unfold overwrite
  by_cases h1 : q.Address ≠ "" <;> by_cases h2 : q.PostalCode ≠ 0 <;>
    by_cases h3 : f ≠ "false" <;> simp [h1, h2, h3]

theorem overwrite_PostalCode (p : models.Profile υ ρ) (q : profiledto.UpdateProfile)
    (f : String) :
    (overwrite p q f).PostalCode = if q.PostalCode ≠ 0 then q.PostalCode else p.PostalCode := by
  unfold overwrite
  by_cases h1 : q.Address ≠ "" <;> by_cases h2 : q.PostalCode ≠ 0 <;>
    by_cases h3 : f ≠ "false" <;> simp [h1, h2, h3]

theorem overwrite_Image (p : models.Profile υ ρ) (q : profiledto.UpdateProfile) (f : String) :
    (overwrite p q f).Image = if f ≠ "false" then q.Image else p.Image := by
  unfold overwrite
  by_cases h1 : q.Address ≠ "" <;> by_cases h2 : q.PostalCode ≠ 0 <;>
    by_cases h3 : f ≠ "false" <;> simp [h1, h2, h3]

theorem overwrite_frame (p : models.Profile υ ρ) (q : profiledto.UpdateProfile) (f : String) :
    (overwrite p q f).UserID = p.UserID ∧ (overwrite p q f).User = p.User ∧
      (overwrite p q f).Phone = p.Phone ∧ (overwrite p q f).City = p.City ∧
      (overwrite p q f).rest = p.rest := by
  unfold overwrite
  by_cases h1 : q.Address ≠ "" <;> by_cases h2 : q.PostalCode ≠ 0 <;>
    by_cases h3 : f ≠ "false" <;> simp [h1, h2, h3]

/-! ## The claims -/

/-- C7. `convertResponseProfile` copies field by field: each of the seven
fields of the response is the same-named field of the profile, so two profiles
that agree on the seven have the same response, whatever else they hold. -/
theorem convertResponseProfile_fieldwise (u v : models.Profile υ ρ) :
    ((convertResponseProfile u).Image = u.Image ∧
      (convertResponseProfile u).Phone = u.Phone ∧
      (convertResponseProfile u).Address = u.Address ∧
      (convertResponseProfile u).PostalCode = u.PostalCode ∧
      (convertResponseProfile u).City = u.City ∧
      (convertResponseProfile u).UserID = u.UserID ∧
      (convertResponseProfile u).User = u.User) ∧
    (u.Image = v.Image → u.Phone = v.Phone → u.Address = v.Address →
      u.PostalCode = v.PostalCode → u.City = v.City → u.UserID = v.UserID →
      u.User = v.User → convertResponseProfile u = convertResponseProfile v) := by
  refine ⟨⟨rfl, rfl, rfl, rfl, rfl, rfl, rfl⟩, ?_⟩
  intro h1 h2 h3 h4 h5 h6 h7
  unfold convertResponseProfile
  rw [h1, h2, h3, h4, h5, h6, h7]

/-- C7 at the stored sample profile and a copy under another record ID: the
two differ, their responses do not. -/
theorem convertResponseProfile_fieldwise_witness :
    sample.stored ≠ { sample.stored with rest := 8 } ∧
      convertResponseProfile sample.stored
        = convertResponseProfile { sample.stored with rest := 8 } :=
  ⟨by decide,
    (convertResponseProfile_fieldwise sample.stored { sample.stored with rest := 8 }).2
      rfl rfl rfl rfl rfl rfl rfl⟩

/-- C3. An `UpdateProfile` run that reaches the lookup (the context holds the
user id and the file name, the upload left a result) calls the repository's
`UpdateProfile` once and leaves the store that call leaves; the profile it
hands over has the `UserID`, `User`, `Phone`, `City` and every unnamed column
of the profile the lookup returned: only `Address`, `PostalCode` and `Image`
can differ. -/
theorem UpdateProfile_preserves_ownership (h : handlersProfile σ υ ρ)
    (Upload : String → Option uploader.UploadResult) (r : Request) (db : σ)
    (id : Int) (filepath : String) (resp : uploader.UploadResult)
    (hid : r.userInfoID = some id) (hfile : r.dataFile = some filepath)
    (hup : Upload filepath = some resp) :
    ∃ q, updateCalls (UpdateProfile h Upload r db).trace = [q] ∧
      (UpdateProfile h Upload r db).db =
        (h.ProfileRepository.UpdateProfile q (h.ProfileRepository.GetProfile id db).db).db ∧
      q.UserID = (h.ProfileRepository.GetProfile id db).val.UserID ∧
      q.User = (h.ProfileRepository.GetProfile id db).val.User ∧
      q.Phone = (h.ProfileRepository.GetProfile id db).val.Phone ∧
      q.City = (h.ProfileRepository.GetProfile id db).val.City ∧
      q.rest = (h.ProfileRepository.GetProfile id db).val.rest :=
  ⟨_, (UpdateProfile_reached h Upload r db id filepath resp hid hfile hup).1,
    (UpdateProfile_reached h Upload r db id filepath resp hid hfile hup).2,
    overwrite_frame _ _ _⟩

/-- C3 on the stored sample profile: user 7 sends a new address, postal code
and file; the profile handed over is still record 7 of user 3, `sofia`, with
her phone and city. -/
theorem UpdateProfile_preserves_ownership_witness :
    ∃ q, updateCalls
        (UpdateProfile ⟨sample.memory⟩ sample.uploadOK
          (sample.updateRequest "Jl. Teh 2" "16111" "tmp/x.png") [sample.stored]).trace = [q] ∧
      (UpdateProfile ⟨sample.memory⟩ sample.uploadOK
          (sample.updateRequest "Jl. Teh 2" "16111" "tmp/x.png") [sample.stored]).db =
        (sample.memory.UpdateProfile q (sample.memory.GetProfile 7 [sample.stored]).db).db ∧
      q.UserID = 3 ∧ q.User = "sofia" ∧ q.Phone = "0812" ∧ q.City = "Bandung" ∧ q.rest = 7 :=
  UpdateProfile_preserves_ownership ⟨sample.memory⟩ sample.uploadOK
    (sample.updateRequest "Jl. Teh 2" "16111" "tmp/x.png") [sample.stored] 7 "tmp/x.png"
    ⟨"https://cdn/tmp/x.png"⟩ rfl rfl (by decide)

/-- C2, as the code has it. The stored image is replaced only when the
`dataFile` of the request context is not `"false"`. In an `UpdateProfile` run
that reaches the lookup, the profile handed to the repository carries the
stored image when `dataFile` is `"false"`, and the upload's secure URL when
`dataFile` is not `"false"` and that URL is not empty. -/
theorem UpdateProfile_image_by_dataFile (h : handlersProfile σ υ ρ)
    (Upload : String → Option uploader.UploadResult) (r : Request) (db : σ)
    (id : Int) (filepath : String) (resp : uploader.UploadResult)
    (hid : r.userInfoID = some id) (hfile : r.dataFile = some filepath)
    (hup : Upload filepath = some resp) :
    ∃ q, updateCalls (UpdateProfile h Upload r db).trace = [q] ∧
      (UpdateProfile h Upload r db).db =
        (h.ProfileRepository.UpdateProfile q (h.ProfileRepository.GetProfile id db).db).db ∧
      (filepath = "false" → q.Image = (h.ProfileRepository.GetProfile id db).val.Image) ∧
      (filepath ≠ "false" → resp.SecureURL ≠ "" → q.Image = resp.SecureURL) ∧
      (q.Image ≠ (h.ProfileRepository.GetProfile id db).val.Image → filepath ≠ "false") := by
  refine ⟨_, (UpdateProfile_reached h Upload r db id filepath resp hid hfile hup).1,
    (UpdateProfile_reached h Upload r db id filepath resp hid hfile hup).2, ?_, ?_, ?_⟩
  · intro hf
    rw [overwrite_Image, if_neg (not_not.mpr hf)]
  · intro hf _
    rw [overwrite_Image, if_pos hf]
  · intro hne hf
    apply hne
    rw [overwrite_Image, if_neg (not_not.mpr hf)]

/-- C2 on the stored sample profile: with the file `tmp/x.png` sent and
uploaded the profile handed over carries the new URL; with `dataFile` `"false"`
and an upload that still leaves a result it carries the stored image. -/
theorem UpdateProfile_image_by_dataFile_witness :
    (∃ q, updateCalls
        (UpdateProfile ⟨sample.memory⟩ sample.uploadOK
          (sample.updateRequest "" "" "tmp/x.png") [sample.stored]).trace = [q] ∧
      q.Image = "https://cdn/tmp/x.png") ∧
    (∃ q, updateCalls
        (UpdateProfile ⟨sample.memory⟩ sample.uploadOK
          (sample.updateRequest "" "" "false") [sample.stored]).trace = [q] ∧
      q.Image = "https://img/old.png") := by
  constructor
  · obtain ⟨q, hq, _, _, hnew, _⟩ :=
      UpdateProfile_image_by_dataFile ⟨sample.memory⟩ sample.uploadOK
        (sample.updateRequest "" "" "tmp/x.png") [sample.stored] 7 "tmp/x.png"
        ⟨"https://cdn/tmp/x.png"⟩ rfl rfl (by decide)
    exact ⟨q, hq, hnew (by decide) (by decide)⟩
  · obtain ⟨q, hq, _, hkeep, _, _⟩ :=
      UpdateProfile_image_by_dataFile ⟨sample.memory⟩ sample.uploadOK
        (sample.updateRequest "" "" "false") [sample.stored] 7 "false"
        ⟨"https://cdn/false"⟩ rfl rfl (by decide)
    exact ⟨q, hq, hkeep rfl⟩

/-- C2 fails as stated: a file was sent (`dataFile` is `tmp/x.png`), the upload
left a result whose secure URL is empty, and the stored image
`https://img/old.png` is replaced by the empty string. -/
theorem UpdateProfile_image_emptied :
    sample.uploadFails "tmp/x.png" = some ⟨""⟩ ∧
      (sample.memory.GetProfile 7 [sample.stored]).val.Image = "https://img/old.png" ∧
      updateCalls
          (UpdateProfile ⟨sample.memory⟩ sample.uploadFails
            (sample.updateRequest "" "" "tmp/x.png") [sample.stored]).trace
        = [{ sample.stored with Image := "" }] := by
  decide

/-- C6. `CreateProfile` on a body that decodes to `d` and passes validation
calls the repository's `CreateProfile` once, with a profile whose six fields
are those of `d`, and leaves the store that call leaves; when the call returns
no error the handler writes status 200 and the success envelope of
`convertResponseProfile` of the returned profile, and nothing else. -/
theorem CreateProfile_valid_request [Inhabited υ] [Inhabited ρ] (h : handlersProfile σ υ ρ)
    (tags : profiledto.CreateProfile → Bool) (r : Request) (db : σ)
    (d : profiledto.CreateProfile) (hbody : r.Body = some (some d)) (hvalid : tags d = true) :
    ∃ q, createCalls (CreateProfile h tags r db).trace = [q] ∧
      (CreateProfile h tags r db).db = (h.ProfileRepository.CreateProfile q db).db ∧
      q.Phone = d.Phone ∧ q.Address = d.Address ∧ q.City = d.City ∧
      q.PostalCode = d.PostalCode ∧ q.Image = d.Image ∧ q.UserID = d.UserID ∧
      ((h.ProfileRepository.CreateProfile q db).err = none →
        written (CreateProfile h tags r db).trace =
          [Event.WriteHeader 200,
            Event.EncodeSuccess
              ⟨"Success",
                dto.Data.response
                  (convertResponseProfile (h.ProfileRepository.CreateProfile q db).val)⟩]) := by
  refine ⟨{ Phone := d.Phone, Address := d.Address, City := d.City, PostalCode := d.PostalCode,
            Image := d.Image, UserID := d.UserID, User := default, rest := default },
    ?_, ?_, rfl, rfl, rfl, rfl, rfl, rfl, ?_⟩
  · unfold CreateProfile
    rw [hbody]
    simp only [validateStruct, hvalid, Bool.true_eq_false, if_false]
    simp only [createCalls_append, (onError_calls _ _ _).2.1, (writeSuccess_calls _).2.1,
      List.append_nil]
    rfl
  · unfold CreateProfile
    rw [hbody]
    simp only [validateStruct, hvalid, Bool.true_eq_false, if_false]
  · intro herr
    unfold CreateProfile
    rw [hbody]
    simp only [validateStruct, hvalid, Bool.true_eq_false, if_false]
    rw [herr]
    rfl

/-- C6 on the in-memory repository: the sample DTO passes the phone tag and is
created, and the store holds it after the stored profile. -/
theorem CreateProfile_valid_request_witness :
    ∃ q, createCalls
        (CreateProfile ⟨sample.memory⟩ sample.phoneRequired
          (sample.createRequest sample.newProfile) [sample.stored]).trace = [q] ∧
      (CreateProfile ⟨sample.memory⟩ sample.phoneRequired
          (sample.createRequest sample.newProfile) [sample.stored]).db = [sample.stored, q] ∧
      q.Phone = "0813" ∧ q.Address = "Jl. Teh 2" ∧ q.City = "Bogor" ∧
      q.PostalCode = 16111 ∧ q.Image = "new.png" ∧ q.UserID = 4 ∧
      ((sample.memory.CreateProfile q [sample.stored]).err = none →
        written
          (CreateProfile ⟨sample.memory⟩ sample.phoneRequired
            (sample.createRequest sample.newProfile) [sample.stored]).trace =
          [Event.WriteHeader 200,
            Event.EncodeSuccess
              ⟨"Success",
                dto.Data.response
                  (convertResponseProfile
                    (sample.memory.CreateProfile q [sample.stored]).val)⟩]) :=
  CreateProfile_valid_request ⟨sample.memory⟩ sample.phoneRequired
    (sample.createRequest sample.newProfile) [sample.stored] sample.newProfile rfl (by decide)

/-- C4. `CreateProfile` on a body that does not decode, or that decodes to
something the validator rejects, writes status 400 and one error envelope with
`Code` 400 and nothing else, does not call the repository's `CreateProfile`,
and leaves the repository state as it was. -/
theorem CreateProfile_bad_request [Inhabited υ] [Inhabited ρ] (h : handlersProfile σ υ ρ)
    (tags : profiledto.CreateProfile → Bool) (r : Request) (db : σ)
    (hbad : r.Body = none ∨ ∃ request, r.Body = some request ∧
      validateStruct tags request = false) :
    (∃ message, written (CreateProfile h tags r db).trace =
        [Event.WriteHeader 400, Event.EncodeError ⟨400, message⟩]) ∧
      createCalls (CreateProfile h tags r db).trace = [] ∧
      (CreateProfile h tags r db).db = db := by
  rcases hbad with hnone | ⟨request, hsome, hrej⟩
  · unfold CreateProfile
    rw [hnone]
    exact ⟨⟨"hai", rfl⟩, rfl, rfl⟩
  · unfold CreateProfile
    rw [hsome]
    cases request with
    | none => exact ⟨⟨"hello", rfl⟩, rfl, rfl⟩
    | some d =>
      simp only []
      rw [if_pos hrej]
      exact ⟨⟨"hello", rfl⟩, rfl, rfl⟩

/-- C4 on a body that does not decode and on a body whose DTO lacks the
required phone number. -/
theorem CreateProfile_bad_request_witness :
    ((∃ message, written
        (CreateProfile ⟨sample.memory⟩ sample.phoneRequired sample.emptyRequest
          [sample.stored]).trace =
        [Event.WriteHeader 400, Event.EncodeError ⟨400, message⟩]) ∧
      createCalls
        (CreateProfile ⟨sample.memory⟩ sample.phoneRequired sample.emptyRequest
          [sample.stored]).trace = [] ∧
      (CreateProfile ⟨sample.memory⟩ sample.phoneRequired sample.emptyRequest
          [sample.stored]).db = [sample.stored]) ∧
    ((∃ message, written
        (CreateProfile ⟨sample.memory⟩ sample.phoneRequired
          (sample.createRequest sample.noPhone) [sample.stored]).trace =
        [Event.WriteHeader 400, Event.EncodeError ⟨400, message⟩]) ∧
      createCalls
        (CreateProfile ⟨sample.memory⟩ sample.phoneRequired
          (sample.createRequest sample.noPhone) [sample.stored]).trace = [] ∧
      (CreateProfile ⟨sample.memory⟩ sample.phoneRequired
          (sample.createRequest sample.noPhone) [sample.stored]).db = [sample.stored]) :=
  ⟨CreateProfile_bad_request ⟨sample.memory⟩ sample.phoneRequired sample.emptyRequest
      [sample.stored] (Or.inl rfl),
    CreateProfile_bad_request ⟨sample.memory⟩ sample.phoneRequired
      (sample.createRequest sample.noPhone) [sample.stored]
      (Or.inr ⟨some sample.noPhone, rfl, by decide⟩)⟩

/-- C1, as the code has it. In an `UpdateProfile` run that reaches the lookup
the profile handed to the repository has the incoming address when that is not
empty and the looked-up address otherwise, and the incoming postal code, which
is what `strconv.Atoi` returns for the `postal_code` form value, when that is
not zero and the looked-up postal code otherwise. A form value `Atoi` rejects
with a syntax error counts as zero; one it rejects with a range error counts as
the nearest end of the 64-bit range. So a decimal integer counts as itself
clamped to that range, and a value that is no decimal integer counts as zero
when the digits after its optional sign stay below `2 ^ 64`. -/
theorem UpdateProfile_overwrites_address_postal_code (h : handlersProfile σ υ ρ)
    (Upload : String → Option uploader.UploadResult) (r : Request) (db : σ)
    (id : Int) (filepath : String) (resp : uploader.UploadResult)
    (hid : r.userInfoID = some id) (hfile : r.dataFile = some filepath)
    (hup : Upload filepath = some resp) :
    ∃ q, updateCalls (UpdateProfile h Upload r db).trace = [q] ∧
      (UpdateProfile h Upload r db).db =
        (h.ProfileRepository.UpdateProfile q (h.ProfileRepository.GetProfile id db).db).db ∧
      q.Address =
        (if r.FormValue "address" ≠ "" then r.FormValue "address"
          else (h.ProfileRepository.GetProfile id db).val.Address) ∧
      q.PostalCode =
        (if (strconv.Atoi (r.FormValue "postal_code")).1 ≠ 0 then
            (strconv.Atoi (r.FormValue "postal_code")).1
          else (h.ProfileRepository.GetProfile id db).val.PostalCode) ∧
      ((strconv.Atoi (r.FormValue "postal_code")).2 = some strconv.NumError.ErrSyntax →
        q.PostalCode = (h.ProfileRepository.GetProfile id db).val.PostalCode) ∧
      ((strconv.Atoi (r.FormValue "postal_code")).2 = some strconv.NumError.ErrRange →
        q.PostalCode = maxInt ∨ q.PostalCode = minInt) ∧
      (∀ n, integer (strconv.bytes (r.FormValue "postal_code")) = some n →
        q.PostalCode =
          if saturate n ≠ 0 then saturate n
          else (h.ProfileRepository.GetProfile id db).val.PostalCode) ∧
      (integer (strconv.bytes (r.FormValue "postal_code")) = none →
        value (leadingDigits (strconv.bytes (r.FormValue "postal_code"))) < 2 ^ 64 →
        q.PostalCode = (h.ProfileRepository.GetProfile id db).val.PostalCode) := by
  refine ⟨_, (UpdateProfile_reached h Upload r db id filepath resp hid hfile hup).1,
    (UpdateProfile_reached h Upload r db id filepath resp hid hfile hup).2,
    overwrite_Address _ _ _, overwrite_PostalCode _ _ _, ?_, ?_, ?_, ?_⟩
  · intro herr
    rw [overwrite_PostalCode]
    have hz := strconv.Atoi_syntax_zero _ herr
    simp only [hz, ne_eq, not_true_eq_false, if_false]
  · intro herr
    rw [overwrite_PostalCode]
    rcases strconv.Atoi_range_bound _ herr with hb | hb
    · left
      simp only [hb]
      exact if_pos (by decide)
    · right
      simp only [hb]
      exact if_pos (by decide)
  · intro n hn
    rw [overwrite_PostalCode, strconv.Atoi_integer _ n hn]
  · intro hn hlt
    have hz : (strconv.Atoi (r.FormValue "postal_code")).1 = 0 := by
      rw [strconv.Atoi_not_integer _ hn, if_neg (by omega)]
    rw [overwrite_PostalCode]
    simp only [hz, ne_eq, not_true_eq_false, if_false]

/-- C1 at two requests that send the file `tmp/x.png`, against the stored
sample profile: the form values `Jl. Teh 2` and `16111` replace address and
postal code, an empty address and the postal code `abc` leave both. -/
theorem UpdateProfile_overwrites_address_postal_code_witness :
    (∃ q, updateCalls
        (UpdateProfile ⟨sample.memory⟩ sample.uploadOK
          (sample.updateRequest "Jl. Teh 2" "16111" "tmp/x.png") [sample.stored]).trace = [q] ∧
      q.Address = "Jl. Teh 2" ∧ q.PostalCode = 16111) ∧
    (∃ q, updateCalls
        (UpdateProfile ⟨sample.memory⟩ sample.uploadOK
          (sample.updateRequest "" "abc" "tmp/x.png") [sample.stored]).trace = [q] ∧
      q.Address = "Jl. Kopi 1" ∧ q.PostalCode = 40111) := by
  constructor
  · obtain ⟨q, hq, _, ha, _, _, _, hint, _⟩ :=
      UpdateProfile_overwrites_address_postal_code ⟨sample.memory⟩ sample.uploadOK
        (sample.updateRequest "Jl. Teh 2" "16111" "tmp/x.png") [sample.stored] 7 "tmp/x.png"
        ⟨"https://cdn/tmp/x.png"⟩ rfl rfl (by decide)
    exact ⟨q, hq, ha, hint 16111 (by decide)⟩
  · obtain ⟨q, hq, _, ha, _, _, _, _, hnot⟩ :=
      UpdateProfile_overwrites_address_postal_code ⟨sample.memory⟩ sample.uploadOK
        (sample.updateRequest "" "abc" "tmp/x.png") [sample.stored] 7 "tmp/x.png"
        ⟨"https://cdn/tmp/x.png"⟩ rfl rfl (by decide)
    exact ⟨q, hq, ha, hnot (by decide) (by decide)⟩

/-- C1 fails as stated: in a request that sends the file `tmp/x.png`, the form
value `9223372036854775808` does not parse as an `int` (`Atoi` returns a range
error), yet it does not count as zero. The stored postal code 40111 is
replaced, by 9223372036854775807, which is not the number the form value
writes either. -/
theorem UpdateProfile_postal_code_out_of_range :
    integer (strconv.bytes "9223372036854775808") = some 9223372036854775808 ∧
      strconv.Atoi "9223372036854775808"
        = (9223372036854775807, some strconv.NumError.ErrRange) ∧
      (sample.memory.GetProfile 7 [sample.stored]).val.PostalCode = 40111 ∧
      updateCalls
          (UpdateProfile ⟨sample.memory⟩ sample.uploadOK
            (sample.updateRequest "" "9223372036854775808" "tmp/x.png") [sample.stored]).trace
        = [{ sample.stored with
              PostalCode := 9223372036854775807, Image := "https://cdn/tmp/x.png" }] := by
  decide

/-- C10, as the code has it. `GetProfile` and `DeleteProfile` call the
repository's `GetProfile` once, with what `strconv.Atoi` returns for the path
value `id` (the empty string when the path has none), the error dropped: a
decimal integer `n` of the 64-bit range gives `n`, one outside the range gives
the nearest end of the range; a value that is no decimal integer gives 0 when
the digits after its optional sign stay below `2 ^ 64`, and the end of the
range on the side of its sign when they do not. -/
theorem path_id_parsed_saturating (h : handlersProfile σ υ ρ) (r : Request) (db : σ) :
    ∃ id : Int, getCalls (GetProfile h r db).trace = [id] ∧
      getCalls (DeleteProfile h r db).trace = [id] ∧
      (∀ n, integer (strconv.bytes (mapIndex r.Vars "id")) = some n →
        minInt ≤ n → n ≤ maxInt → id = n) ∧
      (∀ n, integer (strconv.bytes (mapIndex r.Vars "id")) = some n → id = saturate n) ∧
      (integer (strconv.bytes (mapIndex r.Vars "id")) = none →
        value (leadingDigits (strconv.bytes (mapIndex r.Vars "id"))) < 2 ^ 64 → id = 0) ∧
      (integer (strconv.bytes (mapIndex r.Vars "id")) = none →
        2 ^ 64 ≤ value (leadingDigits (strconv.bytes (mapIndex r.Vars "id"))) →
        id = if negative (strconv.bytes (mapIndex r.Vars "id")) = true then minInt
          else maxInt) ∧
      (r.Vars "id" = none → id = 0) := by
  refine ⟨_, getCalls_GetProfile h r db, getCalls_DeleteProfile h r db, ?_, ?_, ?_, ?_, ?_⟩
  · intro n hn h1 h2
    rw [strconv.Atoi_integer _ n hn]
    show saturate n = n
    unfold saturate
    rw [if_neg (by omega), if_neg (by omega)]
  · intro n hn
    rw [strconv.Atoi_integer _ n hn]
  · intro hn hlt
    rw [strconv.Atoi_not_integer _ hn, if_neg (by omega)]
  · intro hn hge
    rw [strconv.Atoi_not_integer _ hn, if_pos hge]
  · intro hnone
    have : mapIndex r.Vars "id" = "" := by
      unfold mapIndex
      rw [hnone]
      rfl
    rw [this]
    decide

/-- C10 at the path values `42`, `-7`, `abc` and at a path without `id`. -/
theorem path_id_parsed_saturating_witness :
    getCalls (GetProfile ⟨sample.memory⟩ (sample.withID "42") [sample.stored]).trace = [42] ∧
      getCalls (DeleteProfile ⟨sample.memory⟩ (sample.withID "-7") [sample.stored]).trace
        = [-7] ∧
      getCalls (GetProfile ⟨sample.memory⟩ (sample.withID "abc") [sample.stored]).trace = [0] ∧
      getCalls (DeleteProfile ⟨sample.memory⟩ sample.emptyRequest [sample.stored]).trace
        = [0] := by
  refine ⟨?_, ?_, ?_, ?_⟩
  · obtain ⟨id, hg, _, hin, _⟩ :=
      path_id_parsed_saturating ⟨sample.memory⟩ (sample.withID "42") [sample.stored]
    rw [hg, hin 42 (by decide) (by decide) (by decide)]
  · obtain ⟨id, _, hd, hin, _⟩ :=
      path_id_parsed_saturating ⟨sample.memory⟩ (sample.withID "-7") [sample.stored]
    rw [hd, hin (-7) (by decide) (by decide) (by decide)]
  · obtain ⟨id, hg, _, _, _, hnot, _⟩ :=
      path_id_parsed_saturating ⟨sample.memory⟩ (sample.withID "abc") [sample.stored]
    rw [hg, hnot (by decide) (by decide)]
  · obtain ⟨id, _, hd, _, _, _, _, hmiss⟩ :=
      path_id_parsed_saturating ⟨sample.memory⟩ sample.emptyRequest [sample.stored]
    rw [hd, hmiss rfl]

/-- C10 fails as stated: the path value `9223372036854775808` is a decimal
integer and `GetProfile` is called with 9223372036854775807, not with it; the
path value `99999999999999999999x` is no decimal integer and `GetProfile` is
called with 9223372036854775807, not with 0. -/
theorem path_id_out_of_range :
    integer (strconv.bytes "9223372036854775808") = some 9223372036854775808 ∧
      getCalls
          (GetProfile ⟨sample.memory⟩ (sample.withID "9223372036854775808")
            [sample.stored]).trace
        = [9223372036854775807] ∧
      integer (strconv.bytes "99999999999999999999x") = none ∧
      getCalls
          (DeleteProfile ⟨sample.memory⟩ (sample.withID "99999999999999999999x")
            [sample.stored]).trace
        = [9223372036854775807] := by
  decide

/-- C5 breaks on a failing repository call. `FindProfiles` against a
repository that returns an error writes two envelopes, the error envelope and
then a success envelope. -/
theorem FindProfiles_error_then_success :
    envelopes (FindProfiles ⟨sample.down⟩ sample.emptyRequest ()).trace =
      [Event.EncodeError ⟨400, "connection refused"⟩,
        Event.EncodeSuccess ⟨"Success", dto.Data.profiles []⟩] := by
  decide

/-- C8 breaks on a failing lookup. `DeleteProfile` for record 9, which the
store does not hold, still calls the repository's `DeleteProfile`, with the
zero profile the failed lookup returned; `UpdateProfile` for a user without a
profile still calls the repository's `UpdateProfile`, and the store, empty
before, holds a record after. -/
theorem mutation_after_failed_lookup :
    ((sample.memory.GetProfile 9 [sample.stored]).err = some "record not found" ∧
      deleteCalls
          (DeleteProfile ⟨sample.memory⟩ (sample.withID "9") [sample.stored]).trace
        = [sample.zero]) ∧
    ((sample.memory.GetProfile 7 []).err = some "record not found" ∧
      updateCalls
          (UpdateProfile ⟨sample.memory⟩ sample.uploadOK
            (sample.updateRequest "Jl. Teh 2" "16111" "false") []).trace
        = [{ sample.zero with Address := "Jl. Teh 2", PostalCode := 16111 }] ∧
      (UpdateProfile ⟨sample.memory⟩ sample.uploadOK
            (sample.updateRequest "Jl. Teh 2" "16111" "false") []).db
        = [{ sample.zero with Address := "Jl. Teh 2", PostalCode := 16111 }]) := by
  decide

/-- C9 breaks in `GetProfile` (and the same block of `FindProfiles` and
`CreateProfile`). On a failing lookup `GetProfile` writes status 500 and then
an error envelope whose `Code` is 400. -/
theorem GetProfile_error_code_differs :
    written (GetProfile ⟨sample.memory⟩ (sample.withID "9") [sample.stored]).trace =
        [Event.WriteHeader 500, Event.EncodeError ⟨400, "record not found"⟩,
          Event.WriteHeader 200,
          Event.EncodeSuccess
            ⟨"Success", dto.Data.response (convertResponseProfile sample.zero)⟩] ∧
      errorCodesMatch
          (GetProfile ⟨sample.memory⟩ (sample.withID "9") [sample.stored]).trace = false := by
  decide

end handlers

end Waysbucks
